import Mathlib

/-!
Shallow embedding of the agentic-dev-pipeline orchestration core
(`pipeline.py`, `runner.py`, `verify.py`, `domain.py`) and proofs about it.

External effects (subprocess execution, the wall clock, the file system,
signal delivery) are modelled as explicit parameters: a gate command's
subprocess behaviour is a function `SysExec`, the external agent's per-attempt
behaviour is a function `Nat → AttemptOutcome`, and the orchestrator's
environment `PipeEnv` packages the per-iteration behaviour of each phase.
File writes are recorded in explicit state / result fields.
-/

namespace AgenticDevPipeline

/-! ## domain.py -/

/-- `GateStatus` from `domain.py`. -/
inductive GateStatus where
  | pass
  | fail
  | skipped
  | blocked
deriving DecidableEq, Repr

/-- `IterationOutcome` from `domain.py`. -/
inductive IterationOutcome where
  | pass
  | gate_fail
  | verify_fail
deriving DecidableEq, Repr

/-- `TRIANGULAR_PASS_MARKER` from `domain.py`. -/
def TRIANGULAR_PASS_MARKER : String := "TRIANGULAR_PASS"

/-- `GateResult` from `domain.py`; `duration_s` is a float the core never
sets (it keeps the dataclass default `0.0`), modelled as `Nat`. -/
structure GateResult where
  name : String := ""
  status : GateStatus := GateStatus.skipped
  output : String := ""
  duration_s : Nat := 0
deriving DecidableEq, Repr

/-- `IterationMetrics` from `domain.py` (the fields the orchestrator writes). -/
structure IterationMetrics where
  iteration : Nat := 0
  duration_s : Nat := 0
  phase1_done : Bool := false
  gate_results : List GateResult := []
  verification_status : GateStatus := GateStatus.skipped
  outcome : Option IterationOutcome := none
deriving DecidableEq, Repr

/-- `PipelineMetrics` from `domain.py`; timestamps are opaque strings. -/
structure PipelineMetrics where
  started_at : String := ""
  ended_at : String := ""
  total_duration_s : Nat := 0
  total_iterations : Nat := 0
  converged : Bool := false
  iterations : List IterationMetrics := []
deriving DecidableEq, Repr

/-! ## Subprocess model

`subprocess.run(cmd, shell=True, ...)` in `_run_gate_command` either completes
with a return code and captured streams, times out, or raises some other
exception; `SysExec` gives the behaviour of the operating system on a given
command and timeout. -/

/-- Outcome of one `subprocess.run` of a gate command. -/
inductive ExecOutcome where
  | completed (returncode : Int) (stdout stderr : String)
  | timedOut
  | raised (msg : String)
deriving DecidableEq, Repr

/-- The operating system's response to `subprocess.run(cmd, timeout=t)`. -/
def SysExec : Type := String → Nat → ExecOutcome

/-! ## Command safety filter (`pipeline.py` lines 29-34)

`_UNSAFE_PATTERN = re.compile(r"\$\(|` ++ "`" ++ r"|;\s*rm\s|&&\s*rm\s|>\s*/dev/")`.
The alternatives are modelled character-exactly; `\s` is Python's whitespace
class. Each alternative is deterministic even with a greedy `\s*`, because
the character following the starred class (`r` or `/`) is never whitespace. -/

/-- Python's `\s` class: space, tab, newline, carriage return, vertical tab,
form feed. -/
def isPySpace (c : Char) : Bool :=
  c = ' ' || c = '\t' || c = '\n' || c = '\r' || c = '\x0b' || c = '\x0c'

/-- Consume a maximal run of `\s` characters (the greedy `\s*`). -/
def skipSpaces : List Char → List Char
  | [] => []
  | c :: cs => if isPySpace c then skipSpaces cs else c :: cs

/-- Does one alternative of `_UNSAFE_PATTERN` match starting at this
position? -/
def matchesUnsafeAt (l : List Char) : Bool :=
  (match l with
   | '$' :: '(' :: _ => true
   | _ => false) ||
  (match l with
   | '\x60' :: _ => true
   | _ => false) ||
  (match l with
   | ';' :: rest =>
     (match skipSpaces rest with
      | 'r' :: 'm' :: c :: _ => isPySpace c
      | _ => false)
   | _ => false) ||
  (match l with
   | '&' :: '&' :: rest =>
     (match skipSpaces rest with
      | 'r' :: 'm' :: c :: _ => isPySpace c
      | _ => false)
   | _ => false) ||
  (match l with
   | '>' :: rest =>
     (match skipSpaces rest with
      | '/' :: 'd' :: 'e' :: 'v' :: '/' :: _ => true
      | _ => false)
   | _ => false)

/-- `re.search`: try the pattern at every position. -/
def searchUnsafe : List Char → Bool
  | [] => false
  | c :: rest => matchesUnsafeAt (c :: rest) || searchUnsafe rest

/-- `_is_safe_command` from `pipeline.py`. -/
def _is_safe_command (cmd : String) : Bool :=
  !(searchUnsafe cmd.toList)

/-- `_GATE_OUTPUT_LIMIT` from `pipeline.py`. -/
def _GATE_OUTPUT_LIMIT : Nat := 500

/-- Python slicing `s[:n]`: the first `n` characters. -/
def pySlice (s : String) (n : Nat) : String :=
  ⟨s.data.take n⟩

/-- `_run_gate_command` from `pipeline.py`: blocked commands never reach the
subprocess layer `sys`; otherwise the subprocess outcome decides the pair
`(passed, output)`. -/
def _run_gate_command (sys : SysExec) (cmd : String) (timeout : Nat) : Bool × String :=
  if !(_is_safe_command cmd) then
    (false, "BLOCKED: command contains unsafe patterns: " ++ cmd)
  else
    match sys cmd timeout with
    | ExecOutcome.completed rc out err => (rc = 0, out ++ err)
    | ExecOutcome.timedOut =>
      (false, "Command timed out after " ++ toString timeout ++ "s: " ++ cmd)
    | ExecOutcome.raised msg => (false, "Command failed: " ++ msg)

/-! ## Callable gates -/

/-- Behaviour of one in-process callable gate: it returns a pair or raises. -/
inductive CallOutcome where
  | returns (passed : Bool) (output : String)
  | raises (err : String)
deriving DecidableEq, Repr

/-- `_run_callable_gate` from `pipeline.py`: a raising gate is converted to a
failure, never a crash. -/
def _run_callable_gate (name : String) (f : CallOutcome) : Bool × String :=
  match f with
  | CallOutcome.returns p o => (p, o)
  | CallOutcome.raises e => (false, "Gate \x27" ++ name ++ "\x27 raised: " ++ e)

/-! ## Sequential gate discipline (`_run_gates_sequential`) -/

/-- The command-gate loop of `_run_gates_sequential`: run gates in order,
recording a `GateResult` per executed gate, stopping after the first
failure with `"<name> (<cmd>) FAILED:\n<output>"`. -/
def seqCmdGates (sys : SysExec) (timeout : Nat) :
    List (String × String) → Bool × String × List GateResult
  | [] => (true, "", [])
  | (name, cmd) :: rest =>
    let r := _run_gate_command sys cmd timeout
    let status := if r.1 then GateStatus.pass else GateStatus.fail
    let res : GateResult :=
      { name := name, status := status, output := pySlice r.2 _GATE_OUTPUT_LIMIT }
    if r.1 then
      let t := seqCmdGates sys timeout rest
      (t.1, t.2.1, res :: t.2.2)
    else
      (false, name ++ " (" ++ cmd ++ ") FAILED:\n" ++ r.2, [res])

/-- The callable-gate loop of `_run_gates_sequential`: same short-circuit,
with names prefixed `callable:` and no `(<cmd>)` part in the failure text. -/
def seqCallableGates : List (String × CallOutcome) → Bool × String × List GateResult
  | [] => (true, "", [])
  | (cname, cfunc) :: rest =>
    let r := _run_callable_gate cname cfunc
    let status := if r.1 then GateStatus.pass else GateStatus.fail
    let res : GateResult :=
      { name := "callable:" ++ cname, status := status,
        output := pySlice r.2 _GATE_OUTPUT_LIMIT }
    if r.1 then
      let t := seqCallableGates rest
      (t.1, t.2.1, res :: t.2.2)
    else
      (false, "callable:" ++ cname ++ " FAILED:\n" ++ r.2, [res])

/-- `_run_gates_sequential` from `pipeline.py`: command gates first, then
callable gates, with `if not gate_pass: break` at the top of each loop. -/
def _run_gates_sequential (sys : SysExec) (timeout : Nat)
    (gates : List (String × String)) (callable_gates : List (String × CallOutcome)) :
    Bool × String × List GateResult :=
  let c := seqCmdGates sys timeout gates
  if c.1 then
    let k := seqCallableGates callable_gates
    (k.1, k.2.1, c.2.2 ++ k.2.2)
  else
    c

/-! ## Parallel gate discipline (`_run_gates_parallel`)

All gates are submitted to the pool; `as_completed` then yields the finished
jobs in a nondeterministic order. We model the submitted jobs (each already
evaluated to its `(passed, output)` pair) and quantify theorems over any
permutation `completed` of them. -/

/-- The jobs submitted to the thread pool, in submission order: each command
gate under its name, each callable gate under `callable:<name>`. -/
def parallelJobs (sys : SysExec) (timeout : Nat)
    (gates : List (String × String)) (callable_gates : List (String × CallOutcome)) :
    List (String × Bool × String) :=
  gates.map (fun g => (g.1, _run_gate_command sys g.2 timeout)) ++
    callable_gates.map (fun c => ("callable:" ++ c.1, _run_callable_gate c.1 c.2))

/-- The `as_completed` collection loop of `_run_gates_parallel`, over the
finished jobs in completion order: a `GateResult` per job, a
`"<name> FAILED:\n<output>"` block per failed job, blocks joined by blank
lines. -/
def collectParallel (completed : List (String × Bool × String)) :
    Bool × String × List GateResult :=
  let results := completed.map (fun j =>
    ({ name := j.1, status := if j.2.1 then GateStatus.pass else GateStatus.fail,
       output := pySlice j.2.2 _GATE_OUTPUT_LIMIT } : GateResult))
  let failures := (completed.filter (fun j => !j.2.1)).map
    (fun j => j.1 ++ " FAILED:\n" ++ j.2.2)
  if failures.isEmpty then (true, "", results)
  else (false, String.intercalate "\n\n" failures, results)

/-- `_run_quality_gates` from `pipeline.py`: empty gate set short-circuits to
`(True, "", [])`; otherwise dispatch on the discipline. `completed` is the
parallel pool's completion order (a permutation of `parallelJobs` in any real
run). -/
def _run_quality_gates (sys : SysExec) (completed : List (String × Bool × String))
    (gates : List (String × String)) (callable_gates : List (String × CallOutcome))
    (use_parallel : Bool) (timeout : Nat) : Bool × String × List GateResult :=
  if gates.length + callable_gates.length = 0 then (true, "", [])
  else if use_parallel then collectParallel completed
  else _run_gates_sequential sys timeout gates callable_gates

/-- The gate-set construction in `run_pipeline` (lines 355-363): built-in
commands with non-empty strings, in lint/test/security order, then plugins
under `plugin:` names. -/
def buildGates (lint_cmd test_cmd security_cmd : String)
    (plugins : List (String × String)) : List (String × String) :=
  ((if lint_cmd ≠ "" then [("lint", lint_cmd)] else []) ++
   (if test_cmd ≠ "" then [("test", test_cmd)] else []) ++
   (if security_cmd ≠ "" then [("security", security_cmd)] else [])) ++
    plugins.map (fun p => ("plugin:" ++ p.1, p.2))

/-! ## runner.py — `CliClaudeRunner.run`

One subprocess attempt either completes with a return code and streams, times
out, or raises `FileNotFoundError` (the `claude` binary is absent).
`CliClaudeRunner.run` is modelled as a function of the attempt behaviours
(indexed by the 1-based attempt number) returning the Python result —
`.ok output` for a normal return, `.error msg` for a raised `RuntimeError` —
paired with the list of backoff sleeps performed, in order. -/

/-- Outcome of one `subprocess.run(["claude", ...])` attempt. -/
inductive AttemptOutcome where
  | completed (returncode : Int) (stdout stderr : String)
  | timedOut
  | fileNotFound
deriving DecidableEq, Repr

/-- An attempt that neither succeeds nor aborts: non-zero exit or timeout. -/
def attemptFails (o : AttemptOutcome) : Bool :=
  match o with
  | AttemptOutcome.completed rc _ _ => rc ≠ 0
  | AttemptOutcome.timedOut => true
  | AttemptOutcome.fileNotFound => false

/-- Message of the `RuntimeError` raised on `FileNotFoundError`. -/
def claudeNotFoundMsg : String :=
  "\x27claude\x27 CLI not found in PATH. Install Claude Code first."

/-- Message of the `RuntimeError` raised after exhausting all retries. -/
def claudeExhaustedMsg (max_retries : Nat) : String :=
  "claude failed after " ++ toString max_retries ++ " attempts"

/-- The `for attempt in range(1, max_retries + 1)` loop of
`CliClaudeRunner.run`, from attempt number `attempt`, with `fuel` iterations
left (`fuel = max_retries - attempt + 1` at every call). -/
def runAttempts (attempts : Nat → AttemptOutcome) (max_retries : Nat) :
    Nat → Nat → Except String String × List Nat
  | _, 0 => (Except.error (claudeExhaustedMsg max_retries), [])
  | attempt, fuel + 1 =>
    match attempts attempt with
    | AttemptOutcome.fileNotFound => (Except.error claudeNotFoundMsg, [])
    | AttemptOutcome.completed rc out _ =>
      if rc = 0 then (Except.ok out, [])
      else if attempt < max_retries then
        let t := runAttempts attempts max_retries (attempt + 1) fuel
        (t.1, 2 ^ attempt :: t.2)
      else (Except.error (claudeExhaustedMsg max_retries), [])
    | AttemptOutcome.timedOut =>
      if attempt < max_retries then
        let t := runAttempts attempts max_retries (attempt + 1) fuel
        (t.1, 2 ^ attempt :: t.2)
      else (Except.error (claudeExhaustedMsg max_retries), [])

namespace CliClaudeRunner

/-- `CliClaudeRunner.run` from `runner.py`. -/
def run (attempts : Nat → AttemptOutcome) (max_retries : Nat) :
    Except String String × List Nat :=
  runAttempts attempts max_retries 1 max_retries

end CliClaudeRunner

/-! ## verify.py — `run_triangular_verification`

The two agent calls go through the runner; here the runner behaviour is a
function from prompt text to output text (a run in which neither call
raises — the claim under verification concerns the returned boolean). The
two artifact writes are returned explicitly. -/

/-- Result of `run_triangular_verification`: the returned boolean and the
persisted artifacts (`blind-review.md`, `discrepancy-report.md`). -/
structure VerifyRun where
  passed : Bool
  blind_review : String
  discrepancy_report : String
deriving DecidableEq, Repr

/-- Substring test: Python's `needle in haystack` over the character list. -/
def containsSub (haystack needle : List Char) : Bool :=
  match haystack with
  | [] => needle.isEmpty
  | _ :: rest => needle.isPrefixOf haystack || containsSub rest needle

/-- The Agent B (blind review) prompt of `verify.py`, as a function of the
context instruction, requirements path and changed-file section. -/
def agentBPrompt (context_instruction requirements_file changed_section : String) : String :=
  context_instruction ++
  "Do NOT read any requirements document (" ++ requirements_file ++ ").\n\n" ++
  "The following files were recently changed or created:\n" ++ changed_section ++
  "\n\nFor each file:\n" ++
  "1. Describe what this code does (behavior and intent, not just structure)\n" ++
  "2. List any convention/rule violations found in the project rules\n" ++
  "3. List potential issues, edge cases, or bugs\n\n" ++
  "Output your analysis as structured markdown."

/-- The Agent C (discrepancy report) prompt of `verify.py`; the verdict
section asks for `TRIANGULAR_PASS_MARKER` on its own line. -/
def agentCPrompt (requirements_file blind_review_file : String) : String :=
  "You are Agent C in a triangular verification process.\n\n" ++
  "Read these two documents carefully:\n" ++
  "1. " ++ requirements_file ++ " (original requirements — the source of truth)\n" ++
  "2. " ++ blind_review_file ++ " (blind code analysis by another agent)\n\n" ++
  "Do NOT read any code files directly.\n\n" ++
  "Compare them and produce a discrepancy report with these sections:\n\n" ++
  "## Requirements Met\n" ++
  "List each requirement confirmed by the blind review, with evidence.\n\n" ++
  "## Requirements Missed\n" ++
  "Requirements present in the requirements doc but NOT reflected in the blind review.\n\n" ++
  "## Extra Behavior\n" ++
  "Behavior described in the blind review but NOT in the requirements.\n\n" ++
  "## Potential Bugs\n" ++
  "Where the blind review contradicts or conflicts with requirements.\n\n" ++
  "## Verdict\n" ++
  "If ALL requirements are met and no critical issues found, output exactly on its own line:\n" ++
  TRIANGULAR_PASS_MARKER ++ "\n\n" ++
  "Otherwise, list each issue that must be fixed."

/-- `run_triangular_verification` from `verify.py`: call the runner for the
blind review, persist it, call the runner for the discrepancy report,
persist it, then decide by a raw substring test for the pass marker on the
persisted report text. -/
def run_triangular_verification (runner : String → String)
    (requirements_file blind_review_file context_instruction changed_section : String) :
    VerifyRun :=
  let output_b := runner (agentBPrompt context_instruction requirements_file changed_section)
  let output_c := runner (agentCPrompt requirements_file blind_review_file)
  let report_text := output_c
  { passed := containsSub report_text.toList TRIANGULAR_PASS_MARKER.toList,
    blind_review := output_b,
    discrepancy_report := report_text }

/-! ## pipeline.py — `run_pipeline`

The orchestrator's interactions with the outside world during iteration `i`
are collected in `PipeEnv`:
- the three reads of the cooperative `shutdown_requested` flag (top of loop,
  after phase 1, after the gate phase),
- the implementation phase (`.error` when the runner raises after exhausting
  retries),
- the gate phase result `(all_passed, failure_text, results)` as produced by
  `_run_quality_gates`,
- the verification result (`.error` when a runner call inside it raises),
- the contents of `discrepancy-report.md` if that file exists.
`PipeState` records the observable effects: the feedback artifact, the
iteration metrics list, the iterations at which the gate phase overwrote the
feedback artifact, the iterations at which verification was entered, and
every persisted `PipelineMetrics` (one entry per `metrics.save`). -/

/-- Per-iteration behaviour of the orchestrator's collaborators. -/
structure PipeEnv where
  claudeFound : Bool
  shutdownAtLoopTop : Nat → Bool
  shutdownAfterImpl : Nat → Bool
  shutdownAfterGates : Nat → Bool
  implResult : Nat → Except String String
  gateExec : Nat → Bool × String × List GateResult
  verifyResult : Nat → Except String Bool
  discrepancyReport : Nat → Option String

/-- Observable state of one pipeline run. -/
structure PipeState where
  feedback : Option String
  iterations : List IterationMetrics
  converged : Bool
  gateFeedbackWrites : List Nat
  verifyCalls : List Nat
  metricsSaves : List PipelineMetrics
deriving DecidableEq, Repr

/-- Fallback feedback text when verification fails without a report file. -/
def noReportFallback : String :=
  "Triangular verification failed but no discrepancy report found."

/-- The `IterationMetrics` record appended for a terminal iteration `i`:
`iter_metrics` after phase 1 completed and `gate_results` were attached, with
the given terminal verification status and outcome. -/
def iterRecord (env : PipeEnv) (i : Nat) (vs : GateStatus) (oc : IterationOutcome) :
    IterationMetrics :=
  { iteration := i, phase1_done := true, gate_results := (env.gateExec i).2.2,
    verification_status := vs, outcome := some oc }

/-- The `for iteration in range(1, max_iterations + 1)` loop of
`run_pipeline`, from iteration `i` with `fuel` iterations left
(`fuel = max_iterations - i + 1` at every call). `.error` in the first
component is an exception escaping the loop body toward the `finally`
block. -/
def runLoop (env : PipeEnv) : Nat → Nat → PipeState → Except String Unit × PipeState
  | _, 0, st => (Except.ok (), st)
  | i, fuel + 1, st =>
    if env.shutdownAtLoopTop i then (Except.ok (), st)
    else
      match env.implResult i with
      | Except.error e => (Except.error e, st)
      | Except.ok _ =>
        if env.shutdownAfterImpl i then (Except.ok (), st)
        else if !(env.gateExec i).1 then
          runLoop env (i + 1) fuel
            { st with
              feedback := some (env.gateExec i).2.1,
              gateFeedbackWrites := st.gateFeedbackWrites ++ [i],
              iterations := st.iterations ++
                [iterRecord env i GateStatus.skipped IterationOutcome.gate_fail] }
        else if env.shutdownAfterGates i then (Except.ok (), st)
        else
          match env.verifyResult i with
          | Except.error e =>
            (Except.error e, { st with verifyCalls := st.verifyCalls ++ [i] })
          | Except.ok true =>
            (Except.ok (),
             { st with
               feedback := none,
               converged := true,
               verifyCalls := st.verifyCalls ++ [i],
               iterations := st.iterations ++
                 [iterRecord env i GateStatus.pass IterationOutcome.pass] })
          | Except.ok false =>
            runLoop env (i + 1) fuel
              { st with
                feedback := some ((env.discrepancyReport i).getD noReportFallback),
                verifyCalls := st.verifyCalls ++ [i],
                iterations := st.iterations ++
                  [iterRecord env i GateStatus.fail IterationOutcome.verify_fail] }

/-- The run state before iteration 1: `feedback.txt` may pre-exist with the
given content; nothing has been recorded or persisted. -/
def initState (initFeedback : Option String) : PipeState :=
  { feedback := initFeedback, iterations := [], converged := false,
    gateFeedbackWrites := [], verifyCalls := [], metricsSaves := [] }

/-- The `PipelineMetrics` finalized in the `finally` block: totals computed
from the recorded iterations and the convergence flag. -/
def finalMetrics (st : PipeState) : PipelineMetrics :=
  { total_iterations := st.iterations.length,
    converged := st.converged,
    iterations := st.iterations }

/-- `metrics.save(out / "metrics.json")`: one more persisted snapshot. -/
def saveMetrics (st : PipeState) : PipeState :=
  { st with metricsSaves := st.metricsSaves ++ [finalMetrics st] }

/-- The `finally` block and function exit of `run_pipeline`: metrics are
finalized and saved whether the loop ended normally (return `converged`) or
with an escaping exception (re-raised after the `finally` block). -/
def finalizeRun (r : Except String Unit × PipeState) : Except String Bool × PipeState :=
  match r.1 with
  | Except.error e => (Except.error e, saveMetrics r.2)
  | Except.ok _ => (Except.ok r.2.converged, saveMetrics r.2)

/-- `run_pipeline` from `pipeline.py`. The `shutil.which("claude")` guard
returns `False` from before the `try`/`finally` block; otherwise the loop
runs and the `finally` block finalizes and saves `PipelineMetrics` exactly
once. `initFeedback` is the pre-existing content of `feedback.txt`, if any. -/
def run_pipeline (env : PipeEnv) (max_iterations : Nat) (initFeedback : Option String) :
    Except String Bool × PipeState :=
  if !env.claudeFound then (Except.ok false, initState initFeedback)
  else finalizeRun (runLoop env 1 max_iterations (initState initFeedback))

/-! ## Auxiliary definitions used by the theorems -/

/-- The `GateResult` recorded for one finished parallel job. -/
def jobResult (j : String × Bool × String) : GateResult :=
  { name := j.1, status := if j.2.1 then GateStatus.pass else GateStatus.fail,
    output := pySlice j.2.2 _GATE_OUTPUT_LIMIT }

/-- A concrete environment in which the `claude` executable is missing; all
other collaborators are benign. -/
def envClaudeMissing : PipeEnv :=
  { claudeFound := false,
    shutdownAtLoopTop := fun _ => false,
    shutdownAfterImpl := fun _ => false,
    shutdownAfterGates := fun _ => false,
    implResult := fun _ => Except.ok "",
    gateExec := fun _ => (true, "", []),
    verifyResult := fun _ => Except.ok true,
    discrepancyReport := fun _ => none }

/-- A concrete environment in which every iteration's gate phase fails. -/
def envAllGateFail : PipeEnv :=
  { claudeFound := true,
    shutdownAtLoopTop := fun _ => false,
    shutdownAfterImpl := fun _ => false,
    shutdownAfterGates := fun _ => false,
    implResult := fun _ => Except.ok "impl-output",
    gateExec := fun _ => (false, "lint (run-lint) FAILED:\nboom",
      [{ name := "lint", status := GateStatus.fail, output := "boom" }]),
    verifyResult := fun _ => Except.ok true,
    discrepancyReport := fun _ => none }

/-- A concrete environment whose gate phase is the empty gate set run
through `_run_quality_gates`. -/
def envEmptyGates : PipeEnv :=
  { claudeFound := true,
    shutdownAtLoopTop := fun _ => false,
    shutdownAfterImpl := fun _ => false,
    shutdownAfterGates := fun _ => false,
    implResult := fun _ => Except.ok "impl-output",
    gateExec := fun _ => _run_quality_gates (fun _ _ => ExecOutcome.timedOut) []
      (buildGates "" "" "" []) [] false 300,
    verifyResult := fun _ => Except.ok true,
    discrepancyReport := fun _ => none }

/-- What a recorded iteration's outcome says about the environment at that
iteration: `pass` means gates passed and verification returned true,
`gate_fail` means the gate phase failed, `verify_fail` means gates passed
and verification returned false. -/
def iterFacts (env : PipeEnv) (im : IterationMetrics) : Prop :=
  (im.outcome = some IterationOutcome.pass →
    (env.gateExec im.iteration).1 = true ∧
      env.verifyResult im.iteration = Except.ok true) ∧
  (im.outcome = some IterationOutcome.gate_fail →
    (env.gateExec im.iteration).1 = false) ∧
  (im.outcome = some IterationOutcome.verify_fail →
    (env.gateExec im.iteration).1 = true ∧
      env.verifyResult im.iteration = Except.ok false)

/-- A concrete environment whose first iteration passes its gates and its
verification. -/
def envConverge : PipeEnv :=
  { claudeFound := true,
    shutdownAtLoopTop := fun _ => false,
    shutdownAfterImpl := fun _ => false,
    shutdownAfterGates := fun _ => false,
    implResult := fun _ => Except.ok "impl-output",
    gateExec := fun _ => (true, "", []),
    verifyResult := fun _ => Except.ok true,
    discrepancyReport := fun _ => none }


/-! ## Helper lemmas -/

/-- Truncation really bounds the length. -/
lemma pySlice_length_le (s : String) (n : Nat) : (pySlice s n).length ≤ n := by
  show (s.data.take n).length ≤ n
  rw [List.length_take]
  exact Nat.min_le_left _ _

/-- `List.isPrefixOf` agrees with the existential description of prefixes. -/
lemma isPrefixOf_iff_exists (needle : List Char) :
    ∀ l : List Char, needle.isPrefixOf l = true ↔ ∃ t, l = needle ++ t := by
  induction needle with
  | nil =>
    intro l
    simp [List.isPrefixOf]
  | cons n ns ih =>
    intro l
    cases l with
    | nil =>
      simp [List.isPrefixOf]
    | cons c cs =>
      simp only [List.isPrefixOf, Bool.and_eq_true, beq_iff_eq, ih cs]
      constructor
      · rintro ⟨rfl, t, rfl⟩
        exact ⟨t, rfl⟩
      · rintro ⟨t, h⟩
        rw [List.cons_append] at h
        injection h with h1 h2
        exact ⟨h1.symm, t, h2⟩

/-- `containsSub` agrees with the existential description of substrings. -/
lemma containsSub_iff_exists (needle : List Char) :
    ∀ l : List Char, containsSub l needle = true ↔ ∃ a b, l = a ++ needle ++ b := by
  intro l
  induction l with
  | nil =>
    simp only [containsSub, List.isEmpty_iff]
    constructor
    · rintro rfl
      exact ⟨[], [], rfl⟩
    · rintro ⟨a, b, h⟩
      rcases List.append_eq_nil.mp h.symm with ⟨h1, h2⟩
      exact (List.append_eq_nil.mp h1).2
  | cons c cs ih =>
    simp only [containsSub, Bool.or_eq_true, isPrefixOf_iff_exists, ih]
    constructor
    · rintro (⟨t, h⟩ | ⟨a, b, h⟩)
      · exact ⟨[], t, by simpa using h⟩
      · exact ⟨c :: a, b, by simp [h]⟩
    · rintro ⟨a, b, h⟩
      cases a with
      | nil =>
        exact Or.inl ⟨b, by simpa using h⟩
      | cons a0 as =>
        rw [List.cons_append, List.cons_append] at h
        injection h with h1 h2
        exact Or.inr ⟨as, b, by simp [h2]⟩

/-! ## Claim theorems -/

/-- C5: a shell-command gate whose command matches the unsafe pattern is
blocked: its result is exactly the `BLOCKED:` failure pair, and the
subprocess layer is never consulted (the result is identical under every
possible subprocess behaviour). -/
theorem unsafe_command_blocked_never_executed
    (sys sys2 : SysExec) (cmd : String) (timeout : Nat)
    (h : _is_safe_command cmd = false) :
    _run_gate_command sys cmd timeout =
      (false, "BLOCKED: command contains unsafe patterns: " ++ cmd) ∧
    _run_gate_command sys cmd timeout = _run_gate_command sys2 cmd timeout := by
  unfold _run_gate_command
  rw [h]
  exact ⟨rfl, rfl⟩

/-- C5 witness: a concrete redirection into `/dev/` is blocked under a
subprocess layer that would have reported success. -/
theorem unsafe_command_blocked_witness :
    _is_safe_command "cat secrets > /dev/null" = false ∧
    _run_gate_command (fun _ _ => ExecOutcome.completed 0 "ran" "")
        "cat secrets > /dev/null" 300 =
      (false, "BLOCKED: command contains unsafe patterns: cat secrets > /dev/null") :=
  ⟨by decide,
   (unsafe_command_blocked_never_executed
      (fun _ _ => ExecOutcome.completed 0 "ran" "")
      (fun _ _ => ExecOutcome.timedOut)
      "cat secrets > /dev/null" 300 (by decide)).1⟩

/-- Every result recorded by the sequential command-gate loop is truncated. -/
lemma seqCmdGates_output_le (sys : SysExec) (t : Nat) :
    ∀ gates, ∀ r ∈ (seqCmdGates sys t gates).2.2, r.output.length ≤ _GATE_OUTPUT_LIMIT := by
  intro gates
  induction gates with
  | nil =>
    intro r hr
    simp [seqCmdGates] at hr
  | cons g rest ih =>
    intro r hr
    obtain ⟨name, cmd⟩ := g
    simp only [seqCmdGates] at hr
    by_cases hp : (_run_gate_command sys cmd t).1
    · rw [if_pos hp] at hr
      rcases List.mem_cons.mp hr with h | h
      · subst h
        exact pySlice_length_le _ _
      · exact ih r h
    · rw [if_neg hp] at hr
      rcases List.mem_singleton.mp hr with rfl
      exact pySlice_length_le _ _

/-- Every result recorded by the sequential callable-gate loop is truncated. -/
lemma seqCallableGates_output_le :
    ∀ cgs, ∀ r ∈ (seqCallableGates cgs).2.2, r.output.length ≤ _GATE_OUTPUT_LIMIT := by
  intro cgs
  induction cgs with
  | nil =>
    intro r hr
    simp [seqCallableGates] at hr
  | cons c rest ih =>
    intro r hr
    obtain ⟨cname, cfunc⟩ := c
    simp only [seqCallableGates] at hr
    by_cases hp : (_run_callable_gate cname cfunc).1
    · rw [if_pos hp] at hr
      rcases List.mem_cons.mp hr with h | h
      · subst h
        exact pySlice_length_le _ _
      · exact ih r h
    · rw [if_neg hp] at hr
      rcases List.mem_singleton.mp hr with rfl
      exact pySlice_length_le _ _

/-- C8: in both disciplines, the output stored in every `GateResult` is at
most `_GATE_OUTPUT_LIMIT = 500` characters long. -/
theorem gate_result_output_truncated (sys : SysExec) (t : Nat)
    (gates : List (String × String)) (cgs : List (String × CallOutcome))
    (completed : List (String × Bool × String)) :
    (∀ r ∈ (_run_gates_sequential sys t gates cgs).2.2,
       r.output.length ≤ _GATE_OUTPUT_LIMIT) ∧
    (∀ r ∈ (collectParallel completed).2.2,
       r.output.length ≤ _GATE_OUTPUT_LIMIT) := by
  constructor
  · intro r hr
    unfold _run_gates_sequential at hr
    by_cases hp : (seqCmdGates sys t gates).1
    · rw [if_pos hp] at hr
      rcases List.mem_append.mp hr with h | h
      · exact seqCmdGates_output_le sys t gates r h
      · exact seqCallableGates_output_le cgs r h
    · rw [if_neg hp] at hr
      exact seqCmdGates_output_le sys t gates r hr
  · intro r hr
    have hmem : r ∈ completed.map (fun j =>
        ({ name := j.1, status := if j.2.1 then GateStatus.pass else GateStatus.fail,
           output := pySlice j.2.2 _GATE_OUTPUT_LIMIT } : GateResult)) := by
      unfold collectParallel at hr
      by_cases hf : ((completed.filter (fun j => !j.2.1)).map
          (fun j => j.1 ++ " FAILED:\n" ++ j.2.2)).isEmpty
      · rw [if_pos hf] at hr
        exact hr
      · rw [if_neg hf] at hr
        exact hr
    rcases List.mem_map.mp hmem with ⟨j, _, rfl⟩
    exact pySlice_length_le _ _

/-- C8 witness: the result recorded for a concrete passing gate obeys the
length bound. -/
theorem gate_result_output_truncated_witness :
    ({ name := "g", status := GateStatus.pass, output := "hello" } : GateResult).output.length
      ≤ _GATE_OUTPUT_LIMIT :=
  (gate_result_output_truncated
    (fun _ _ => ExecOutcome.completed 0 "hello" "")
    300 [("g", "echo x")] [] []).1
    { name := "g", status := GateStatus.pass, output := "hello" } (by decide)

/-- C7: the verification protocol returns `true` exactly when the literal
pass marker occurs as a substring of the persisted discrepancy-report
artifact. -/
theorem verify_true_iff_marker_in_report
    (runner : String → String)
    (requirements_file blind_review_file context_instruction changed_section : String) :
    (run_triangular_verification runner requirements_file blind_review_file
        context_instruction changed_section).passed = true ↔
      ∃ a b, (run_triangular_verification runner requirements_file blind_review_file
        context_instruction changed_section).discrepancy_report.data =
          a ++ TRIANGULAR_PASS_MARKER.data ++ b := by
  show containsSub _ _ = true ↔ _
  exact containsSub_iff_exists TRIANGULAR_PASS_MARKER.toList _

/-- If every attempt from `a` up to just before `k` fails and attempt `k`
succeeds, the loop from `a` returns attempt `k`'s stdout after sleeping
`2^a, …, 2^(k-1)`. -/
lemma runAttempts_first_success (attempts : Nat → AttemptOutcome) (max_retries : Nat)
    (k : Nat) (out err : String) (hk : k ≤ max_retries)
    (hsucc : attempts k = AttemptOutcome.completed 0 out err) :
    ∀ fuel a, a + fuel = max_retries + 1 → a ≤ k →
      (∀ j, a ≤ j → j < k → attemptFails (attempts j) = true) →
      runAttempts attempts max_retries a fuel =
        (Except.ok out, (List.range' a (k - a)).map (fun j => 2 ^ j)) := by
  intro fuel
  induction fuel with
  | zero =>
    intro a hfa hak _
    omega
  | succ fuel ih =>
    intro a hfa hak hfail
    rcases Nat.eq_or_lt_of_le hak with rfl | hlt
    · rw [runAttempts, hsucc]
      simp
    · have hfa' : a + 1 + fuel = max_retries + 1 := by omega
      have haf : attemptFails (attempts a) = true := hfail a le_rfl hlt
      have halt : a < max_retries := by omega
      have hrec := ih (a + 1) hfa' hlt (fun j h1 h2 => hfail j (by omega) h2)
      have hrange : List.range' a (k - a) = a :: List.range' (a + 1) (k - (a + 1)) := by
        have hn : k - a = (k - (a + 1)) + 1 := by omega
        rw [hn, List.range'_succ]
      cases hat : attempts a with
      | completed rc o e =>
        rw [hat] at haf
        have hrc : ¬ rc = 0 := by
          simpa [attemptFails] using haf
        rw [runAttempts, hat]
        simp [hrc, halt, hrec, hrange]
      | timedOut =>
        rw [runAttempts, hat]
        simp [halt, hrec, hrange]
      | fileNotFound =>
        rw [hat] at haf
        simp [attemptFails] at haf

/-- If every attempt from `a` through `max_retries` fails, the loop from `a`
raises the exhaustion error after sleeping `2^a, …, 2^(max_retries-1)`. -/
lemma runAttempts_all_fail (attempts : Nat → AttemptOutcome) (max_retries : Nat) :
    ∀ fuel a, a + fuel = max_retries + 1 → a ≤ max_retries →
      (∀ j, a ≤ j → j ≤ max_retries → attemptFails (attempts j) = true) →
      runAttempts attempts max_retries a fuel =
        (Except.error (claudeExhaustedMsg max_retries),
         (List.range' a (max_retries - a)).map (fun j => 2 ^ j)) := by
  intro fuel
  induction fuel with
  | zero =>
    intro a hfa ham _
    omega
  | succ fuel ih =>
    intro a hfa ham hfail
    have haf : attemptFails (attempts a) = true := hfail a le_rfl ham
    rcases Nat.eq_or_lt_of_le ham with rfl | hlt
    · cases hat : attempts a with
      | completed rc o e =>
        rw [hat] at haf
        have hrc : ¬ rc = 0 := by
          simpa [attemptFails] using haf
        rw [runAttempts, hat]
        simp [hrc]
      | timedOut =>
        rw [runAttempts, hat]
        simp
      | fileNotFound =>
        rw [hat] at haf
        simp [attemptFails] at haf
    · have hfa' : a + 1 + fuel = max_retries + 1 := by omega
      have hrec := ih (a + 1) hfa' hlt (fun j h1 h2 => hfail j (by omega) h2)
      have hrange : List.range' a (max_retries - a) =
          a :: List.range' (a + 1) (max_retries - (a + 1)) := by
        have hn : max_retries - a = (max_retries - (a + 1)) + 1 := by omega
        rw [hn, List.range'_succ]
      cases hat : attempts a with
      | completed rc o e =>
        rw [hat] at haf
        have hrc : ¬ rc = 0 := by
          simpa [attemptFails] using haf
        rw [runAttempts, hat]
        simp [hrc, hlt, hrec, hrange]
      | timedOut =>
        rw [runAttempts, hat]
        simp [hlt, hrec, hrange]
      | fileNotFound =>
        rw [hat] at haf
        simp [attemptFails] at haf

/-- C6: with `max_retries ≥ 1`, (a) if attempts `1..k-1` fail (non-zero exit
or timeout) and attempt `k` exits with code 0, `run` returns attempt `k`'s
stdout after sleeping exactly `2^1, …, 2^(k-1)` seconds; (b) if every attempt
fails, `run` raises the fatal error naming the attempt count after sleeping
`2^1, …, 2^(max_retries-1)` seconds. -/
theorem runner_retry_backoff_exhaustion (attempts : Nat → AttemptOutcome)
    (max_retries : Nat) (hmr : 1 ≤ max_retries) :
    (∀ k out err, 1 ≤ k → k ≤ max_retries →
      (∀ j, 1 ≤ j → j < k → attemptFails (attempts j) = true) →
      attempts k = AttemptOutcome.completed 0 out err →
      CliClaudeRunner.run attempts max_retries =
        (Except.ok out, (List.range' 1 (k - 1)).map (fun j => 2 ^ j))) ∧
    ((∀ j, 1 ≤ j → j ≤ max_retries → attemptFails (attempts j) = true) →
      CliClaudeRunner.run attempts max_retries =
        (Except.error (claudeExhaustedMsg max_retries),
         (List.range' 1 (max_retries - 1)).map (fun j => 2 ^ j))) := by
  constructor
  · intro k out err h1 h2 hfail hsucc
    exact runAttempts_first_success attempts max_retries k out err h2 hsucc
      max_retries 1 (by omega) h1 hfail
  · intro hfail
    exact runAttempts_all_fail attempts max_retries max_retries 1
      (by omega) hmr hfail

/-- C6 witness: with three attempts allowed, a timeout on attempt 1 and a
zero exit on attempt 2 yield the successful output after a single 2-second
sleep. -/
theorem runner_retry_backoff_exhaustion_witness :
    CliClaudeRunner.run
        (fun a => if a = 2 then AttemptOutcome.completed 0 "yay" "" else AttemptOutcome.timedOut)
        3 =
      (Except.ok "yay", [2]) := by
  have h := (runner_retry_backoff_exhaustion
      (fun a => if a = 2 then AttemptOutcome.completed 0 "yay" "" else AttemptOutcome.timedOut)
      3 (by decide)).1 2 "yay" "" (by decide) (by decide)
      (by
        intro j h1 h2
        have : j = 1 := by omega
        subst this
        decide)
      (by decide)
  simpa using h

/-- If every command gate passes, the sequential command loop records one
passing result per gate, in declaration order, with empty failure text. -/
lemma seqCmdGates_all_pass (sys : SysExec) (t : Nat) :
    ∀ gates, (∀ g ∈ gates, (_run_gate_command sys g.2 t).1 = true) →
      seqCmdGates sys t gates =
        (true, "",
         gates.map (fun g =>
           { name := g.1, status := GateStatus.pass,
             output := pySlice (_run_gate_command sys g.2 t).2 _GATE_OUTPUT_LIMIT })) := by
  intro gates
  induction gates with
  | nil =>
    intro _
    rfl
  | cons g rest ih =>
    intro h
    obtain ⟨name, cmd⟩ := g
    have hg : (_run_gate_command sys cmd t).1 = true := h (name, cmd) (List.mem_cons_self _ _)
    rw [seqCmdGates]
    simp only [hg, if_true, ih (fun x hx => h x (List.mem_cons_of_mem _ hx))]
    simp [hg]

/-- The sequential command loop stops at the first failing command gate:
gates after it run nothing and record nothing, and the failure text is
exactly `"<name> (<cmd>) FAILED:\n<output>"`. -/
lemma seqCmdGates_first_fail (sys : SysExec) (t : Nat)
    (nm cmd out : String) (post : List (String × String))
    (hfail : _run_gate_command sys cmd t = (false, out)) :
    ∀ pre, (∀ g ∈ pre, (_run_gate_command sys g.2 t).1 = true) →
      seqCmdGates sys t (pre ++ (nm, cmd) :: post) =
        (false, nm ++ " (" ++ cmd ++ ") FAILED:\n" ++ out,
         pre.map (fun g =>
           { name := g.1, status := GateStatus.pass,
             output := pySlice (_run_gate_command sys g.2 t).2 _GATE_OUTPUT_LIMIT }) ++
           [{ name := nm, status := GateStatus.fail,
              output := pySlice out _GATE_OUTPUT_LIMIT }]) := by
  intro pre
  induction pre with
  | nil =>
    intro _
    rw [List.nil_append, seqCmdGates]
    simp [hfail]
  | cons g rest ih =>
    intro h
    obtain ⟨gname, gcmd⟩ := g
    have hg : (_run_gate_command sys gcmd t).1 = true := h (gname, gcmd) (List.mem_cons_self _ _)
    rw [List.cons_append, seqCmdGates]
    simp only [hg, if_true, ih (fun x hx => h x (List.mem_cons_of_mem _ hx))]
    simp [hg]

/-- If every callable gate passes, the sequential callable loop records one
passing result per gate, in order, with empty failure text. -/
lemma seqCallableGates_all_pass :
    ∀ cgs, (∀ c ∈ cgs, (_run_callable_gate c.1 c.2).1 = true) →
      seqCallableGates cgs =
        (true, "",
         cgs.map (fun c =>
           { name := "callable:" ++ c.1, status := GateStatus.pass,
             output := pySlice (_run_callable_gate c.1 c.2).2 _GATE_OUTPUT_LIMIT })) := by
  intro cgs
  induction cgs with
  | nil =>
    intro _
    rfl
  | cons c rest ih =>
    intro h
    obtain ⟨cname, cfunc⟩ := c
    have hc : (_run_callable_gate cname cfunc).1 = true := h (cname, cfunc) (List.mem_cons_self _ _)
    rw [seqCallableGates]
    simp only [hc, if_true, ih (fun x hx => h x (List.mem_cons_of_mem _ hx))]
    simp [hc]

/-- The sequential callable loop stops at the first failing callable gate;
its failure text is `"callable:<name> FAILED:\n<output>"`, with no command
part. -/
lemma seqCallableGates_first_fail
    (cn : String) (co : CallOutcome) (out : String) (cpost : List (String × CallOutcome))
    (hfail : _run_callable_gate cn co = (false, out)) :
    ∀ cpre, (∀ c ∈ cpre, (_run_callable_gate c.1 c.2).1 = true) →
      seqCallableGates (cpre ++ (cn, co) :: cpost) =
        (false, "callable:" ++ cn ++ " FAILED:\n" ++ out,
         cpre.map (fun c =>
           { name := "callable:" ++ c.1, status := GateStatus.pass,
             output := pySlice (_run_callable_gate c.1 c.2).2 _GATE_OUTPUT_LIMIT }) ++
           [{ name := "callable:" ++ cn, status := GateStatus.fail,
              output := pySlice out _GATE_OUTPUT_LIMIT }]) := by
  intro cpre
  induction cpre with
  | nil =>
    intro _
    rw [List.nil_append, seqCallableGates]
    simp [hfail]
  | cons c rest ih =>
    intro h
    obtain ⟨cname, cfunc⟩ := c
    have hc : (_run_callable_gate cname cfunc).1 = true := h (cname, cfunc) (List.mem_cons_self _ _)
    rw [List.cons_append, seqCallableGates]
    simp only [hc, if_true, ih (fun x hx => h x (List.mem_cons_of_mem _ hx))]
    simp [hc]

/-- C3 counterexample: with no command gates and one failing callable gate,
the sequential combined failure text is `"callable:c FAILED:\nboom"`, which
is not of the claimed shape `"<name> (<cmd>) FAILED:\n<output>"` for any
name, command and output. -/
theorem seq_failure_text_counterexample :
    (_run_gates_sequential (fun _ _ => ExecOutcome.completed 0 "" "") 300
        [] [("c", CallOutcome.returns false "boom")]).2.1 = "callable:c FAILED:\nboom" ∧
    ¬ ∃ name cmd output : List Char,
        ("callable:c FAILED:\nboom").data = name ++ " (".data ++ cmd ++ ") FAILED:\n".data ++ output := by
  constructor
  · rfl
  · rintro ⟨name, cmd, output, h⟩
    have h1 : '(' ∈ " (".data := by decide
    have h2 : '(' ∈ name ++ " (".data ++ cmd ++ ") FAILED:\n".data ++ output :=
      List.mem_append_left _ (List.mem_append_left _
        (List.mem_append_left _ (List.mem_append_right name h1)))
    rw [← h] at h2
    exact absurd h2 (by decide)

/-- C3 amended: sequential execution runs gates in declaration order and
stops at the first failure, recording no later `GateResult`; the combined
failure text is `"<name> (<cmd>) FAILED:\n<output>"` when the failing gate is
a command gate, and `"callable:<name> FAILED:\n<output>"` when it is an
in-process callable gate. -/
theorem seq_stops_at_first_failure (sys : SysExec) (t : Nat) :
    (∀ (pre : List (String × String)) (nm cmd out : String)
       (post : List (String × String)) (cgs : List (String × CallOutcome)),
       (∀ g ∈ pre, (_run_gate_command sys g.2 t).1 = true) →
       _run_gate_command sys cmd t = (false, out) →
       _run_gates_sequential sys t (pre ++ (nm, cmd) :: post) cgs =
         (false, nm ++ " (" ++ cmd ++ ") FAILED:\n" ++ out,
          pre.map (fun g =>
            { name := g.1, status := GateStatus.pass,
              output := pySlice (_run_gate_command sys g.2 t).2 _GATE_OUTPUT_LIMIT }) ++
            [{ name := nm, status := GateStatus.fail,
               output := pySlice out _GATE_OUTPUT_LIMIT }])) ∧
    (∀ (gates : List (String × String)) (cpre : List (String × CallOutcome))
       (cn : String) (co : CallOutcome) (out : String)
       (cpost : List (String × CallOutcome)),
       (∀ g ∈ gates, (_run_gate_command sys g.2 t).1 = true) →
       (∀ c ∈ cpre, (_run_callable_gate c.1 c.2).1 = true) →
       _run_callable_gate cn co = (false, out) →
       _run_gates_sequential sys t gates (cpre ++ (cn, co) :: cpost) =
         (false, "callable:" ++ cn ++ " FAILED:\n" ++ out,
          gates.map (fun g =>
            { name := g.1, status := GateStatus.pass,
              output := pySlice (_run_gate_command sys g.2 t).2 _GATE_OUTPUT_LIMIT }) ++
            (cpre.map (fun c =>
              { name := "callable:" ++ c.1, status := GateStatus.pass,
                output := pySlice (_run_callable_gate c.1 c.2).2 _GATE_OUTPUT_LIMIT }) ++
              [{ name := "callable:" ++ cn, status := GateStatus.fail,
                 output := pySlice out _GATE_OUTPUT_LIMIT }]))) := by
  constructor
  · intro pre nm cmd out post cgs hpre hfail
    unfold _run_gates_sequential
    rw [seqCmdGates_first_fail sys t nm cmd out post hfail pre hpre]
    simp
  · intro gates cpre cn co out cpost hgates hcpre hfail
    unfold _run_gates_sequential
    rw [seqCmdGates_all_pass sys t gates hgates,
      seqCallableGates_first_fail cn co out cpost hfail cpre hcpre]
    simp

/-- C3 witness: with gates `[lint: pass, test: fail, security: untouched]`
and one callable gate, execution stops at `test`, records results only for
`lint` and `test`, and reports `test`'s command in the failure text. -/
theorem seq_stops_at_first_failure_witness :
    _run_gates_sequential
        (fun cmd _ => if cmd = "run-lint" then ExecOutcome.completed 0 "ok" ""
          else ExecOutcome.completed 1 "bad" "")
        300 [("lint", "run-lint"), ("test", "run-test"), ("security", "run-sec")]
        [("c", CallOutcome.returns true "fine")] =
      (false, "test (run-test) FAILED:\nbad",
       [{ name := "lint", status := GateStatus.pass, output := "ok" },
        { name := "test", status := GateStatus.fail, output := "bad" }]) := by
  have h := (seq_stops_at_first_failure
      (fun cmd _ => if cmd = "run-lint" then ExecOutcome.completed 0 "ok" ""
        else ExecOutcome.completed 1 "bad" "")
      300).1 [("lint", "run-lint")] "test" "run-test" "bad" [("security", "run-sec")]
      [("c", CallOutcome.returns true "fine")]
      (by
        intro g hg
        rcases List.mem_singleton.mp hg with rfl
        decide)
      (by decide)
  simpa using h

/-- C4: under the parallel discipline, for any completion order of the
submitted jobs, a `GateResult` is collected for every submitted gate
(command and callable) regardless of the other gates, and when at least one
gate failed the combined failure text is the double-newline join of every
failed gate's `"<name> FAILED:\n<output>"` block, each failed gate's block
occurring in the joined list. -/
theorem parallel_collects_all_failures (sys : SysExec) (t : Nat)
    (gates : List (String × String)) (cgs : List (String × CallOutcome))
    (completed : List (String × Bool × String))
    (hperm : completed.Perm (parallelJobs sys t gates cgs)) :
    ((collectParallel completed).2.2.length = gates.length + cgs.length) ∧
    (∀ j ∈ parallelJobs sys t gates cgs,
       jobResult j ∈ (collectParallel completed).2.2) ∧
    ((∃ j ∈ parallelJobs sys t gates cgs, j.2.1 = false) →
       (collectParallel completed).1 = false ∧
       (collectParallel completed).2.1 = String.intercalate "\n\n"
         ((completed.filter (fun j => !j.2.1)).map
           (fun j => j.1 ++ " FAILED:\n" ++ j.2.2)) ∧
       ∀ j ∈ parallelJobs sys t gates cgs, j.2.1 = false →
         (j.1 ++ " FAILED:\n" ++ j.2.2) ∈
           (completed.filter (fun j => !j.2.1)).map
             (fun j => j.1 ++ " FAILED:\n" ++ j.2.2)) := by
  have hlen : completed.length = gates.length + cgs.length := by
    rw [hperm.length_eq]
    simp [parallelJobs]
  refine ⟨?_, ?_, ?_⟩
  · unfold collectParallel
    by_cases hf : ((completed.filter (fun j => !j.2.1)).map
        (fun j => j.1 ++ " FAILED:\n" ++ j.2.2)).isEmpty
    · rw [if_pos hf]
      simpa using hlen
    · rw [if_neg hf]
      simpa using hlen
  · intro j hj
    have hjc : j ∈ completed := hperm.mem_iff.mpr hj
    have hmem : jobResult j ∈ completed.map jobResult := List.mem_map.mpr ⟨j, hjc, rfl⟩
    unfold collectParallel
    by_cases hf : ((completed.filter (fun j => !j.2.1)).map
        (fun j => j.1 ++ " FAILED:\n" ++ j.2.2)).isEmpty
    · rw [if_pos hf]
      exact hmem
    · rw [if_neg hf]
      exact hmem
  · rintro ⟨j, hj, hjf⟩
    have hjc : j ∈ completed.filter (fun j => !j.2.1) :=
      List.mem_filter.mpr ⟨hperm.mem_iff.mpr hj, by simp [hjf]⟩
    have hne : ¬ ((completed.filter (fun j => !j.2.1)).map
        (fun j => j.1 ++ " FAILED:\n" ++ j.2.2)).isEmpty := by
      simp only [List.isEmpty_iff, List.map_eq_nil_iff]
      intro hnil
      rw [hnil] at hjc
      exact absurd hjc (List.not_mem_nil j)
    refine ⟨?_, ?_, ?_⟩
    · unfold collectParallel
      rw [if_neg hne]
    · unfold collectParallel
      rw [if_neg hne]
    · intro j2 hj2 hj2f
      exact List.mem_map.mpr
        ⟨j2, List.mem_filter.mpr ⟨hperm.mem_iff.mpr hj2, by simp [hj2f]⟩, rfl⟩

/-- C4 witness: two failing gates, collected in reversed completion order,
still both record results and both appear in the combined failure text. -/
theorem parallel_collects_all_failures_witness :
    ((collectParallel [("b", false, "bad-b"), ("a", false, "bad-a")]).2.2.length = 2) ∧
    (collectParallel [("b", false, "bad-b"), ("a", false, "bad-a")]).2.1 =
      "b FAILED:\nbad-b\n\na FAILED:\nbad-a" := by
  have h := parallel_collects_all_failures
      (fun c _ => if c = "ca" then ExecOutcome.completed 1 "bad-a" ""
        else ExecOutcome.completed 1 "bad-b" "")
      300 [("a", "ca"), ("b", "cb")] []
      [("b", false, "bad-b"), ("a", false, "bad-a")]
      (by decide)
  refine ⟨h.1, ?_⟩
  have h2 := (h.2.2 ⟨("a", false, "bad-a"), by decide, rfl⟩).2.1
  rw [h2]
  decide

/-- The loop never touches the metrics artifact, and it only appends
iteration numbers `≥ i` to the verification-entry and gate-feedback-write
traces. -/
lemma runLoop_state (env : PipeEnv) :
    ∀ fuel i st,
      ((runLoop env i fuel st).2.metricsSaves = st.metricsSaves) ∧
      (∃ v, (runLoop env i fuel st).2.verifyCalls = st.verifyCalls ++ v ∧ ∀ x ∈ v, i ≤ x) ∧
      (∃ w, (runLoop env i fuel st).2.gateFeedbackWrites = st.gateFeedbackWrites ++ w ∧
        ∀ x ∈ w, i ≤ x) := by
  intro fuel
  induction fuel with
  | zero =>
    intro i st
    refine ⟨rfl, ⟨[], ?_, by simp⟩, ⟨[], ?_, by simp⟩⟩ <;> simp [runLoop]
  | succ fuel ih =>
    intro i st
    rw [runLoop]
    cases h1 : env.shutdownAtLoopTop i with
    | true =>
      simp only [if_pos rfl]
      exact ⟨rfl, ⟨[], by simp⟩, ⟨[], by simp⟩⟩
    | false =>
      rw [if_neg Bool.false_ne_true]
      cases him : env.implResult i with
      | error e =>
        exact ⟨rfl, ⟨[], by simp⟩, ⟨[], by simp⟩⟩
      | ok o =>
        cases h2 : env.shutdownAfterImpl i with
        | true =>
          simp only [if_pos rfl]
          exact ⟨rfl, ⟨[], by simp⟩, ⟨[], by simp⟩⟩
        | false =>
          rw [if_neg Bool.false_ne_true]
          cases hg : (env.gateExec i).1 with
          | false =>
            simp only [Bool.not_false, if_pos rfl]
            obtain ⟨hm, ⟨v, hv, hvb⟩, ⟨w, hw, hwb⟩⟩ := ih (i + 1) _
            refine ⟨hm, ⟨v, by simpa using hv, fun x hx => le_of_lt (hvb x hx)⟩,
              ⟨i :: w, ?_, ?_⟩⟩
            · simpa using hw
            · intro x hx
              rcases List.mem_cons.mp hx with rfl | hx
              · exact le_rfl
              · exact le_of_lt (hwb x hx)
          | true =>
            simp only [Bool.not_true]
            rw [if_neg Bool.false_ne_true]
            cases h3 : env.shutdownAfterGates i with
            | true =>
              simp only [if_pos rfl]
              exact ⟨rfl, ⟨[], by simp⟩, ⟨[], by simp⟩⟩
            | false =>
              rw [if_neg Bool.false_ne_true]
              cases hv : env.verifyResult i with
              | error e =>
                exact ⟨rfl, ⟨[i], by simp⟩, ⟨[], by simp⟩⟩
              | ok b =>
                cases b with
                | true =>
                  exact ⟨rfl, ⟨[i], by simp⟩, ⟨[], by simp⟩⟩
                | false =>
                  obtain ⟨hm, ⟨v, hvv, hvb⟩, ⟨w, hw, hwb⟩⟩ := ih (i + 1) _
                  refine ⟨hm, ⟨i :: v, ?_, ?_⟩, ⟨w, by simpa using hw,
                    fun x hx => le_of_lt (hwb x hx)⟩⟩
                  · simpa using hvv
                  · intro x hx
                    rcases List.mem_cons.mp hx with rfl | hx
                    · exact le_rfl
                    · exact le_of_lt (hvb x hx)

/-- C1 counterexample: when the external agent executable is missing,
`run_pipeline` returns `false` from before the `try`/`finally` block and the
metrics artifact is never persisted — not persisted exactly once as claimed. -/
theorem metrics_not_saved_on_missing_executable :
    (run_pipeline envClaudeMissing 5 none).1 = Except.ok false ∧
    (run_pipeline envClaudeMissing 5 none).2.metricsSaves.length = 0 ∧
    (run_pipeline envClaudeMissing 5 none).2.metricsSaves.length ≠ 1 := by
  refine ⟨rfl, rfl, ?_⟩
  decide

/-- C1 amended: the finalized `PipelineMetrics` is persisted exactly once on
every exit path that passes the executable check — normal convergence,
iteration-budget exhaustion, cancellation, and exceptions escaping the loop —
while the missing-executable precondition path returns without persisting
anything. -/
theorem metrics_saved_once_iff_claude_found (env : PipeEnv) (m : Nat)
    (fb : Option String) :
    (run_pipeline env m fb).2.metricsSaves.length = if env.claudeFound then 1 else 0 := by
  unfold run_pipeline
  cases hc : env.claudeFound with
  | false =>
    simp [initState]
  | true =>
    simp only [Bool.not_true]
    rw [if_neg Bool.false_ne_true]
    have hm : (runLoop env 1 m (initState fb)).2.metricsSaves = [] := by
      rw [(runLoop_state env m 1 (initState fb)).1]
      rfl
    unfold finalizeRun
    cases hr : (runLoop env 1 m (initState fb)).1 with
    | error e =>
      simp [saveMetrics, hm]
    | ok u =>
      simp [saveMetrics, hm]

/-- The `finally` block leaves the loop's state, plus one metrics save,
whatever the loop's result was. -/
lemma finalizeRun_snd (r : Except String Unit × PipeState) :
    (finalizeRun r).2 = saveMetrics r.2 := by
  unfold finalizeRun
  cases r.1 with
  | error e => rfl
  | ok u => rfl

/-- If the implementation phase always completes, at least one gate always
fails and shutdown is never requested, the loop runs its entire budget: one
`gate_fail` iteration record per remaining iteration, verification never
entered, convergence never set. -/
lemma runLoop_all_gate_fail (env : PipeEnv) (outf : Nat → String)
    (hs1 : ∀ i, env.shutdownAtLoopTop i = false)
    (hs2 : ∀ i, env.shutdownAfterImpl i = false)
    (himpl : ∀ i, env.implResult i = Except.ok (outf i))
    (hg : ∀ i, (env.gateExec i).1 = false) :
    ∀ fuel i st,
      (runLoop env i fuel st).1 = Except.ok () ∧
      (runLoop env i fuel st).2.iterations = st.iterations ++
        (List.range' i fuel).map
          (fun j => iterRecord env j GateStatus.skipped IterationOutcome.gate_fail) ∧
      (runLoop env i fuel st).2.verifyCalls = st.verifyCalls ∧
      (runLoop env i fuel st).2.converged = st.converged := by
  intro fuel
  induction fuel with
  | zero =>
    intro i st
    refine ⟨rfl, ?_, rfl, rfl⟩
    simp [runLoop]
  | succ fuel ih =>
    intro i st
    rw [runLoop, hs1 i]
    rw [if_neg Bool.false_ne_true, himpl i]
    rw [hs2 i]
    rw [if_neg Bool.false_ne_true, hg i]
    simp only [Bool.not_false, eq_self_iff_true, if_true]
    obtain ⟨h1, h2, h3, h4⟩ := ih (i + 1)
      { st with
        feedback := some (env.gateExec i).2.1,
        gateFeedbackWrites := st.gateFeedbackWrites ++ [i],
        iterations := st.iterations ++
          [iterRecord env i GateStatus.skipped IterationOutcome.gate_fail] }
    refine ⟨h1, ?_, h3, h4⟩
    rw [h2]
    simp [List.range'_succ]

/-- C9: with `max_iterations = 3`, implementation completing and at least
one gate failing on every iteration, and no shutdown requested, the run
performs exactly iterations 1, 2, 3, each recorded with outcome `gate_fail`,
never enters verification, returns `converged = false`, and the persisted
metrics agree. -/
theorem budget_exhaustion_three_gate_fails (env : PipeEnv) (outf : Nat → String)
    (fb : Option String)
    (hc : env.claudeFound = true)
    (hs1 : ∀ i, env.shutdownAtLoopTop i = false)
    (hs2 : ∀ i, env.shutdownAfterImpl i = false)
    (himpl : ∀ i, env.implResult i = Except.ok (outf i))
    (hg : ∀ i, (env.gateExec i).1 = false) :
    (run_pipeline env 3 fb).1 = Except.ok false ∧
    (run_pipeline env 3 fb).2.iterations.map (fun im => (im.iteration, im.outcome)) =
      [(1, some IterationOutcome.gate_fail), (2, some IterationOutcome.gate_fail),
       (3, some IterationOutcome.gate_fail)] ∧
    (run_pipeline env 3 fb).2.verifyCalls = [] ∧
    (∀ pm ∈ (run_pipeline env 3 fb).2.metricsSaves, pm.converged = false) := by
  obtain ⟨h1, h2, h3, h4⟩ := runLoop_all_gate_fail env outf hs1 hs2 himpl hg 3 1 (initState fb)
  have hrp : run_pipeline env 3 fb = finalizeRun (runLoop env 1 3 (initState fb)) := by
    unfold run_pipeline
    rw [hc]
    simp only [Bool.not_true]
    rw [if_neg Bool.false_ne_true]
  have hsnd : (run_pipeline env 3 fb).2 = saveMetrics (runLoop env 1 3 (initState fb)).2 := by
    rw [hrp, finalizeRun_snd]
  refine ⟨?_, ?_, ?_, ?_⟩
  · rw [hrp]
    unfold finalizeRun
    rw [h1, h4]
    rfl
  · rw [hsnd]
    show (runLoop env 1 3 (initState fb)).2.iterations.map _ = _
    rw [h2]
    simp [initState, iterRecord, List.range']
  · rw [hsnd]
    show (runLoop env 1 3 (initState fb)).2.verifyCalls = _
    rw [h3]
    rfl
  · intro pm hpm
    rw [hsnd] at hpm
    unfold saveMetrics at hpm
    simp only [List.mem_append, List.mem_singleton] at hpm
    rcases hpm with hpm | rfl
    · have : (runLoop env 1 3 (initState fb)).2.metricsSaves = [] := by
        rw [(runLoop_state env 3 1 (initState fb)).1]
        rfl
      rw [this] at hpm
      exact absurd hpm (List.not_mem_nil pm)
    · show (runLoop env 1 3 (initState fb)).2.converged = false
      rw [h4]
      rfl

/-- C9 witness: a concrete always-failing-gate environment exhausts its
3-iteration budget exactly as stated. -/
theorem budget_exhaustion_three_gate_fails_witness :
    (run_pipeline envAllGateFail 3 none).1 = Except.ok false ∧
    (run_pipeline envAllGateFail 3 none).2.iterations.map (fun im => (im.iteration, im.outcome)) =
      [(1, some IterationOutcome.gate_fail), (2, some IterationOutcome.gate_fail),
       (3, some IterationOutcome.gate_fail)] ∧
    (run_pipeline envAllGateFail 3 none).2.verifyCalls = [] := by
  obtain ⟨h1, h2, h3, h4⟩ := budget_exhaustion_three_gate_fails envAllGateFail
    (fun _ => "impl-output") none rfl (fun _ => rfl) (fun _ => rfl) (fun _ => rfl)
    (fun _ => rfl)
  exact ⟨h1, h2, h3⟩

/-- C10: with empty built-in command strings, no plugins and no callable
gates, the built gate set is empty, `_run_quality_gates` short-circuits to
`(True, "", [])` in either discipline, and the iteration whose gate phase
returns that proceeds to the verification phase without writing the
feedback artifact from the gate phase. -/
theorem empty_gate_set_proceeds_to_verification
    (sys : SysExec) (completed : List (String × Bool × String)) (par : Bool) (t : Nat)
    (env : PipeEnv) (k : Nat) (fb : Option String) (o : String)
    (hc : env.claudeFound = true)
    (hs1 : env.shutdownAtLoopTop 1 = false)
    (hs2 : env.shutdownAfterImpl 1 = false)
    (hs3 : env.shutdownAfterGates 1 = false)
    (himpl : env.implResult 1 = Except.ok o)
    (hge : env.gateExec 1 = _run_quality_gates sys completed (buildGates "" "" "" []) [] par t) :
    _run_quality_gates sys completed (buildGates "" "" "" []) [] par t = (true, "", []) ∧
    1 ∈ (run_pipeline env (k + 1) fb).2.verifyCalls ∧
    1 ∉ (run_pipeline env (k + 1) fb).2.gateFeedbackWrites := by
  have hq : _run_quality_gates sys completed (buildGates "" "" "" []) [] par t =
      (true, "", []) := by
    unfold _run_quality_gates buildGates
    simp
  refine ⟨hq, ?_⟩
  have hg1 : env.gateExec 1 = (true, "", []) := by rw [hge, hq]
  have hrp : run_pipeline env (k + 1) fb =
      finalizeRun (runLoop env 1 (k + 1) (initState fb)) := by
    unfold run_pipeline
    rw [hc]
    simp only [Bool.not_true]
    rw [if_neg Bool.false_ne_true]
  have hstep : runLoop env 1 (k + 1) (initState fb) =
      (match env.verifyResult 1 with
       | Except.error e =>
         (Except.error e, { initState fb with verifyCalls := (initState fb).verifyCalls ++ [1] })
       | Except.ok true =>
         (Except.ok (),
          { initState fb with
            feedback := none,
            converged := true,
            verifyCalls := (initState fb).verifyCalls ++ [1],
            iterations := (initState fb).iterations ++
              [iterRecord env 1 GateStatus.pass IterationOutcome.pass] })
       | Except.ok false =>
         runLoop env 2 k
           { initState fb with
             feedback := some ((env.discrepancyReport 1).getD noReportFallback),
             verifyCalls := (initState fb).verifyCalls ++ [1],
             iterations := (initState fb).iterations ++
               [iterRecord env 1 GateStatus.fail IterationOutcome.verify_fail] }) := by
    rw [runLoop, hs1]
    rw [if_neg Bool.false_ne_true, himpl, hs2]
    rw [if_neg Bool.false_ne_true, hg1]
    simp only [Bool.not_true]
    rw [if_neg Bool.false_ne_true, hs3]
    rw [if_neg Bool.false_ne_true]
  rw [hrp, finalizeRun_snd, hstep]
  cases hv : env.verifyResult 1 with
  | error e =>
    constructor
    · show 1 ∈ (initState fb).verifyCalls ++ [1]
      simp
    · show ¬ 1 ∈ (initState fb).gateFeedbackWrites
      simp [initState]
  | ok b =>
    cases b with
    | true =>
      constructor
      · show 1 ∈ (initState fb).verifyCalls ++ [1]
        simp
      · show ¬ 1 ∈ (initState fb).gateFeedbackWrites
        simp [initState]
    | false =>
      obtain ⟨_, ⟨v, hvv, hvb⟩, ⟨w, hw, hwb⟩⟩ := runLoop_state env k 2
        { initState fb with
          feedback := some ((env.discrepancyReport 1).getD noReportFallback),
          verifyCalls := (initState fb).verifyCalls ++ [1],
          iterations := (initState fb).iterations ++
            [iterRecord env 1 GateStatus.fail IterationOutcome.verify_fail] }
      constructor
      · show 1 ∈ (saveMetrics _).verifyCalls
        show 1 ∈ (runLoop env 2 k _).2.verifyCalls
        rw [hvv]
        simp [initState]
      · show ¬ 1 ∈ (saveMetrics _).gateFeedbackWrites
        show ¬ 1 ∈ (runLoop env 2 k _).2.gateFeedbackWrites
        rw [hw]
        intro hmem
        simp only [initState, List.mem_append] at hmem
        rcases hmem with hmem | hmem
        · simp at hmem
        · exact absurd (hwb 1 hmem) (by omega)

/-- C10 witness: a concrete empty-gate-set run enters verification at
iteration 1 with no gate-phase feedback write. -/
theorem empty_gate_set_proceeds_to_verification_witness :
    _run_quality_gates (fun _ _ => ExecOutcome.timedOut) [] (buildGates "" "" "" []) []
        false 300 = (true, "", []) ∧
    1 ∈ (run_pipeline envEmptyGates 2 none).2.verifyCalls ∧
    1 ∉ (run_pipeline envEmptyGates 2 none).2.gateFeedbackWrites :=
  empty_gate_set_proceeds_to_verification
    (fun _ _ => ExecOutcome.timedOut) [] false 300 envEmptyGates 1 none "impl-output"
    rfl rfl rfl rfl rfl rfl

/-- Core loop invariant: starting unconverged with only failing records,
either the loop ends converged with exactly one final `pass` record after
failing ones, or it ends unconverged with only failing records — in both
cases every record's outcome reflects the environment (`iterFacts`). -/
lemma runLoop_main (env : PipeEnv) :
    ∀ fuel i st,
      st.converged = false →
      (∀ im ∈ st.iterations,
        (im.outcome = some IterationOutcome.gate_fail ∨
         im.outcome = some IterationOutcome.verify_fail) ∧ iterFacts env im) →
      (((runLoop env i fuel st).2.converged = true ∧
         ∃ l im, (runLoop env i fuel st).2.iterations = l ++ [im] ∧
           im.outcome = some IterationOutcome.pass ∧ iterFacts env im ∧
           ∀ x ∈ l, (x.outcome = some IterationOutcome.gate_fail ∨
             x.outcome = some IterationOutcome.verify_fail) ∧ iterFacts env x) ∨
       ((runLoop env i fuel st).2.converged = false ∧
         ∀ im ∈ (runLoop env i fuel st).2.iterations,
           (im.outcome = some IterationOutcome.gate_fail ∨
            im.outcome = some IterationOutcome.verify_fail) ∧ iterFacts env im)) := by
  intro fuel
  induction fuel with
  | zero =>
    intro i st hcv hiter
    exact Or.inr ⟨hcv, hiter⟩
  | succ fuel ih =>
    intro i st hcv hiter
    rw [runLoop]
    cases h1 : env.shutdownAtLoopTop i with
    | true =>
      simp only [if_pos rfl]
      exact Or.inr ⟨hcv, hiter⟩
    | false =>
      rw [if_neg Bool.false_ne_true]
      cases him : env.implResult i with
      | error e =>
        exact Or.inr ⟨hcv, hiter⟩
      | ok o =>
        cases h2 : env.shutdownAfterImpl i with
        | true =>
          simp only [if_pos rfl]
          exact Or.inr ⟨hcv, hiter⟩
        | false =>
          rw [if_neg Bool.false_ne_true]
          cases hg : (env.gateExec i).1 with
          | false =>
            simp only [Bool.not_false, if_pos rfl]
            refine ih (i + 1) _ hcv ?_
            intro im hm
            rcases List.mem_append.mp hm with hm | hm
            · exact hiter im hm
            · rcases List.mem_singleton.mp hm with rfl
              refine ⟨Or.inl rfl, ?_, ?_, ?_⟩
              · intro hp
                simp [iterRecord] at hp
              · intro _
                simpa [iterRecord] using hg
              · intro hp
                simp [iterRecord] at hp
          | true =>
            simp only [Bool.not_true]
            rw [if_neg Bool.false_ne_true]
            cases h3 : env.shutdownAfterGates i with
            | true =>
              simp only [if_pos rfl]
              exact Or.inr ⟨hcv, hiter⟩
            | false =>
              rw [if_neg Bool.false_ne_true]
              cases hv : env.verifyResult i with
              | error e =>
                exact Or.inr ⟨hcv, hiter⟩
              | ok b =>
                cases b with
                | true =>
                  refine Or.inl ⟨rfl, st.iterations,
                    iterRecord env i GateStatus.pass IterationOutcome.pass, rfl, rfl,
                    ⟨?_, ?_, ?_⟩, fun x hx => hiter x hx⟩
                  · intro _
                    constructor
                    · simpa [iterRecord] using hg
                    · simpa [iterRecord] using hv
                  · intro hp
                    simp [iterRecord] at hp
                  · intro hp
                    simp [iterRecord] at hp
                | false =>
                  refine ih (i + 1) _ hcv ?_
                  intro im hm
                  rcases List.mem_append.mp hm with hm | hm
                  · exact hiter im hm
                  · rcases List.mem_singleton.mp hm with rfl
                    refine ⟨Or.inr rfl, ?_, ?_, ?_⟩
                    · intro hp
                      simp [iterRecord] at hp
                    · intro hp
                      simp [iterRecord] at hp
                    · intro _
                      constructor
                      · simpa [iterRecord] using hg
                      · simpa [iterRecord] using hv

/-- C2: for every run that returns normally with value `c`: `c` is true iff
the last appended `IterationMetrics` has outcome `pass`; the persisted
`PipelineMetrics` carries the same `converged` flag and iteration list; and
the last record's outcome is `pass` iff, in that same iteration, the gate
phase passed and the verification protocol returned true. -/
theorem converged_iff_last_outcome_pass (env : PipeEnv) (m : Nat)
    (fb : Option String) (c : Bool)
    (h : (run_pipeline env m fb).1 = Except.ok c) :
    (c = true ↔ ∃ l im, (run_pipeline env m fb).2.iterations = l ++ [im] ∧
       im.outcome = some IterationOutcome.pass) ∧
    (∀ pm ∈ (run_pipeline env m fb).2.metricsSaves,
       pm.converged = c ∧ pm.iterations = (run_pipeline env m fb).2.iterations) ∧
    (∀ l im, (run_pipeline env m fb).2.iterations = l ++ [im] →
       (im.outcome = some IterationOutcome.pass ↔
         (env.gateExec im.iteration).1 = true ∧
           env.verifyResult im.iteration = Except.ok true)) := by
  cases hc : env.claudeFound with
  | false =>
    have hrw : run_pipeline env m fb = (Except.ok false, initState fb) := by
      unfold run_pipeline
      rw [hc]
      simp
    rw [hrw] at h ⊢
    have hcf : c = false := by
      injection h with h
      exact h.symm
    subst hcf
    refine ⟨?_, ?_, ?_⟩
    · simp only [Bool.false_eq_true, false_iff]
      rintro ⟨l, im, hl, _⟩
      have : ([] : List IterationMetrics) = l ++ [im] := hl
      exact absurd this.symm (by simp)
    · intro pm hpm
      exact absurd hpm (List.not_mem_nil pm)
    · intro l im hl
      have : ([] : List IterationMetrics) = l ++ [im] := hl
      exact absurd this.symm (by simp)
  | true =>
    have hrw : run_pipeline env m fb =
        finalizeRun (runLoop env 1 m (initState fb)) := by
      unfold run_pipeline
      rw [hc]
      simp only [Bool.not_true]
      rw [if_neg Bool.false_ne_true]
    have hmain := runLoop_main env m 1 (initState fb) rfl (by
      intro im hm
      exact absurd hm (List.not_mem_nil im))
    have hms : (runLoop env 1 m (initState fb)).2.metricsSaves = [] := by
      rw [(runLoop_state env m 1 (initState fb)).1]
      rfl
    have hcc : c = (runLoop env 1 m (initState fb)).2.converged := by
      rw [hrw] at h
      unfold finalizeRun at h
      cases hr : (runLoop env 1 m (initState fb)).1 with
      | error e =>
        rw [hr] at h
        exact absurd h (by simp)
      | ok u =>
        rw [hr] at h
        injection h with h
        exact h.symm
    have hsnd : (run_pipeline env m fb).2 =
        saveMetrics (runLoop env 1 m (initState fb)).2 := by
      rw [hrw, finalizeRun_snd]
    have hitereq : (run_pipeline env m fb).2.iterations =
        (runLoop env 1 m (initState fb)).2.iterations := by
      rw [hsnd]
      rfl
    rcases hmain with ⟨hcv, l, im, hl, hpass, hfacts, hrest⟩ | ⟨hcv, hall⟩
    · have hct : c = true := by rw [hcc, hcv]
      refine ⟨?_, ?_, ?_⟩
      · rw [hct]
        simp only [true_iff]
        exact ⟨l, im, by rw [hitereq, hl], hpass⟩
      · intro pm hpm
        rw [hsnd] at hpm
        unfold saveMetrics at hpm
        rw [hms] at hpm
        simp only [List.nil_append, List.mem_singleton] at hpm
        subst hpm
        constructor
        · show (runLoop env 1 m (initState fb)).2.converged = c
          rw [hcv, hct]
        · show (runLoop env 1 m (initState fb)).2.iterations = _
          rw [hitereq]
      · intro l2 im2 hl2
        rw [hitereq, hl] at hl2
        have him2 : im2 = im := by
          have h1 : (l ++ [im]).getLast? = some im := by simp
          have h2 : (l2 ++ [im2]).getLast? = some im2 := by simp
          rw [hl2] at h1
          rw [h1] at h2
          injection h2 with h2
          exact h2.symm
        subst him2
        constructor
        · intro _
          exact hfacts.1 hpass
        · intro _
          exact hpass
    · have hcf : c = false := by rw [hcc, hcv]
      refine ⟨?_, ?_, ?_⟩
      · rw [hcf]
        simp only [Bool.false_eq_true, false_iff]
        rintro ⟨l, im, hl, hpass⟩
        have him : im ∈ (runLoop env 1 m (initState fb)).2.iterations := by
          rw [← hitereq, hl]
          simp
        rcases (hall im him).1 with hbad | hbad
        · rw [hpass] at hbad
          simp at hbad
        · rw [hpass] at hbad
          simp at hbad
      · intro pm hpm
        rw [hsnd] at hpm
        unfold saveMetrics at hpm
        rw [hms] at hpm
        simp only [List.nil_append, List.mem_singleton] at hpm
        subst hpm
        constructor
        · show (runLoop env 1 m (initState fb)).2.converged = c
          rw [hcv, hcf]
        · show (runLoop env 1 m (initState fb)).2.iterations = _
          rw [hitereq]
      · intro l2 im2 hl2
        have him : im2 ∈ (runLoop env 1 m (initState fb)).2.iterations := by
          rw [← hitereq, hl2]
          simp
        obtain ⟨hout, hf1, hf2, hf3⟩ := hall im2 him
        constructor
        · intro hp
          rcases hout with hbad | hbad
          · rw [hp] at hbad
            simp at hbad
          · rw [hp] at hbad
            simp at hbad
        · rintro ⟨hgt, hvt⟩
          rcases hout with hbad | hbad
          · rw [hf2 hbad] at hgt
            simp at hgt
          · rw [hvt] at hf3
            have := hf3 hbad
            injection this.2 with hx
            simp at hx

/-- C2 witness: a run that converges at iteration 1 satisfies the
biconditionals, exhibited on its persisted metrics. -/
theorem converged_iff_last_outcome_pass_witness :
    (true = true ↔ ∃ l im, (run_pipeline envConverge 3 none).2.iterations = l ++ [im] ∧
       im.outcome = some IterationOutcome.pass) :=
  (converged_iff_last_outcome_pass envConverge 3 none true rfl).1

end AgenticDevPipeline
